import Mathlib

/-!
Verification of the nanomsg legacy compatibility shim (`src/nng_compat.c`)
and the Windows one-time initializer (`src/platform/windows/win_thread.c`)
against their natural-language specification.

The C sources are shallowly embedded: size_t arithmetic is Nat with explicit
reduction modulo 2^64, `int` values are Int, fallible calls return Except,
and the native message layer (whose implementation is not part of this
repository slice) is modelled from the spec's description of the consumed
primitives (spec section 6).  Native calls performed by the shim are
recorded in an explicit trace so that "no native call is attempted" style
properties can be stated.
-/

set_option maxRecDepth 10000

/-! ## Constants

The compat and native headers (`nng_compat.h`, `nng.h`, `errno.h`) are not
part of the source slice.  Modelled from the spec: the error spaces are
"static record[s] pairing one native code with one POSIX-style code"; only
distinctness (and nonzero-ness, for the table sentinel) of the numeric
values matters to the shim's control flow.  POSIX values follow Linux,
native values follow the library's enumeration order. -/

def EINTR : Nat := 4
def ENOENT : Nat := 2
def EIOerr : Nat := 5
def EBADF : Nat := 9
def EAGAIN : Nat := 11
def ENOMEM : Nat := 12
def EACCES : Nat := 13
def EBUSY : Nat := 16
def EINVAL : Nat := 22
def EPROTO : Nat := 71
def EMSGSIZE : Nat := 90
def ENOPROTOOPT : Nat := 92
def ENOTSUP : Nat := 95
def EAFNOSUPPORT : Nat := 97
def EADDRINUSE : Nat := 98
def EADDRNOTAVAIL : Nat := 99
def ECONNABORTED : Nat := 103
def ECONNRESET : Nat := 104
def ETIMEDOUT : Nat := 110
def ECONNREFUSED : Nat := 111
def EHOSTUNREACH : Nat := 113
def EFSM : Nat := 156384765

def NNG_EINTR : Nat := 1
def NNG_ENOMEM : Nat := 2
def NNG_EINVAL : Nat := 3
def NNG_EBUSY : Nat := 4
def NNG_ETIMEDOUT : Nat := 5
def NNG_ECONNREFUSED : Nat := 6
def NNG_ECLOSED : Nat := 7
def NNG_EAGAIN : Nat := 8
def NNG_ENOTSUP : Nat := 9
def NNG_EADDRINUSE : Nat := 10
def NNG_ESTATE : Nat := 11
def NNG_ENOENT : Nat := 12
def NNG_EPROTO : Nat := 13
def NNG_EUNREACHABLE : Nat := 14
def NNG_EADDRINVAL : Nat := 15
def NNG_EPERM : Nat := 16
def NNG_EMSGSIZE : Nat := 17
def NNG_ECONNABORTED : Nat := 18
def NNG_ECONNRESET : Nat := 19

/-- Modelled from the spec: legacy option levels and option ids (the compat
header is not in the source slice); only their distinctness within one
switch level matters. -/
def NN_SOL_SOCKET : Nat := 0

def NN_REQ : Nat := 48
def NN_SUB : Nat := 33
def NN_SURVEYOR : Nat := 98

def NN_LINGER : Nat := 1
def NN_SNDBUF : Nat := 2
def NN_RCVBUF : Nat := 3
def NN_SNDTIMEO : Nat := 4
def NN_RCVTIMEO : Nat := 5
def NN_RECONNECT_IVL : Nat := 6
def NN_RECONNECT_IVL_MAX : Nat := 7
def NN_SNDPRIO : Nat := 8
def NN_RCVPRIO : Nat := 9
def NN_SNDFD : Nat := 10
def NN_RCVFD : Nat := 11
def NN_DOMAIN : Nat := 12
def NN_PROTOCOL : Nat := 13
def NN_IPV4ONLY : Nat := 14
def NN_SOCKET_NAME : Nat := 15
def NN_RCVMAXSIZE : Nat := 16
def NN_MAXTTL : Nat := 17

def NN_REQ_RESEND_IVL : Nat := 1
def NN_SUB_SUBSCRIBE : Nat := 1
def NN_SUB_UNSUBSCRIBE : Nat := 2
def NN_SURVEY_DEADLINE : Nat := 1

/-- Native option identifiers (distinct tokens; values immaterial). -/
def NNG_OPT_LINGER : Nat := 1

def NNG_OPT_SNDBUF : Nat := 2
def NNG_OPT_RCVBUF : Nat := 3
def NNG_OPT_RECONN_TIME : Nat := 4
def NNG_OPT_RECONN_MAXTIME : Nat := 5
def NNG_OPT_SNDFD : Nat := 6
def NNG_OPT_RCVFD : Nat := 7
def NNG_OPT_RCVMAXSZ : Nat := 8
def NNG_OPT_MAXTTL : Nat := 9
def NNG_OPT_RCVTIMEO : Nat := 10
def NNG_OPT_SNDTIMEO : Nat := 11
def NNG_OPT_RESENDTIME : Nat := 12
def NNG_OPT_SUBSCRIBE : Nat := 13
def NNG_OPT_UNSUBSCRIBE : Nat := 14
def NNG_OPT_SURVEYTIME : Nat := 15

def NN_DONTWAIT : Int := 1
def NNG_FLAG_NONBLOCK : Int := 1

/-- Modelled from the spec: the sentinel length requesting a dynamic
envelope; in the (absent) compat header it is `((size_t) -1)`. -/
def NN_MSG : Nat := 2 ^ 64 - 1

/-- Modulus of `size_t` arithmetic (64-bit platform). -/
def SZMOD : Nat := 2 ^ 64

/-- Width of the hidden handle slot, `sizeof (nng_msg *)`. -/
def PTRSZ : Nat := 8

def PROTO_SP : Nat := 1
def SP_HDR : Nat := 1

/-! ## Error-code translator (`nn_errnos`, `nn_seterror`, `nn_strerror`) -/

/-- The static error mapping table of `nng_compat.c` (the `{0,0}` sentinel
terminating the C array is represented by the end of the list; both C scan
loops stop exactly there). -/
def nn_errnos : List (Nat × Nat) :=
  [ (NNG_EINTR, EINTR),
    (NNG_ENOMEM, ENOMEM),
    (NNG_EINVAL, EINVAL),
    (NNG_EBUSY, EBUSY),
    (NNG_ETIMEDOUT, ETIMEDOUT),
    (NNG_ECONNREFUSED, ECONNREFUSED),
    (NNG_ECLOSED, EBADF),
    (NNG_EAGAIN, EAGAIN),
    (NNG_ENOTSUP, ENOTSUP),
    (NNG_EADDRINUSE, EADDRINUSE),
    (NNG_ESTATE, EFSM),
    (NNG_ENOENT, ENOENT),
    (NNG_EPROTO, EPROTO),
    (NNG_EUNREACHABLE, EHOSTUNREACH),
    (NNG_EADDRINVAL, EADDRNOTAVAIL),
    (NNG_EPERM, EACCES),
    (NNG_EMSGSIZE, EMSGSIZE),
    (NNG_ECONNABORTED, ECONNABORTED),
    (NNG_ECONNRESET, ECONNRESET) ]

/-- `nn_seterror`: forward scan of the table on the native code; unknown
codes set `errno` to the generic `EIOerr`.  The returned value is the `errno`
the C function stores. -/
def nn_seterror (err : Nat) : Nat :=
  match nn_errnos.find? (fun e => e.1 == err) with
  | some e => e.2
  | none => EIOerr

/-- The reverse lookup performed by `nn_strerror`: first table entry whose
POSIX code matches.  (`nn_strerror` then returns the native library's
string for that entry's native code.) -/
def nn_strerror_lookup (err : Nat) : Option (Nat × Nat) :=
  nn_errnos.find? (fun e => e.2 == err)

/-! ## Option translator and `nn_setsockopt` -/

/-- The nested switch of `nn_setsockopt` (`nng_compat.c:546-636`) deciding
the native option and the millisecond-conversion flag.  NOTE: in the C
source the `NN_SURVEYOR` case block is not followed by a `break`, so after
its inner switch finishes (having assigned `opt`/`mscvt`) control falls
through into the outer `default:` and the function returns `-1` with
`errno = ENOPROTOOPT`; the embedding reproduces that fall-through. -/
def nn_setsockopt_translate (nnlevel nnopt : Nat) : Except Nat (Nat × Bool) :=
  if nnlevel = NN_SOL_SOCKET then
    if nnopt = NN_LINGER then .ok (NNG_OPT_LINGER, false)
    else if nnopt = NN_SNDBUF then .ok (NNG_OPT_SNDBUF, false)
    else if nnopt = NN_RCVBUF then .ok (NNG_OPT_RCVBUF, false)
    else if nnopt = NN_RECONNECT_IVL then .ok (NNG_OPT_RECONN_TIME, true)
    else if nnopt = NN_RECONNECT_IVL_MAX then .ok (NNG_OPT_RECONN_MAXTIME, true)
    else if nnopt = NN_SNDFD then .ok (NNG_OPT_SNDFD, false)
    else if nnopt = NN_RCVFD then .ok (NNG_OPT_RCVFD, false)
    else if nnopt = NN_RCVMAXSIZE then .ok (NNG_OPT_RCVMAXSZ, false)
    else if nnopt = NN_MAXTTL then .ok (NNG_OPT_MAXTTL, false)
    else if nnopt = NN_RCVTIMEO then .ok (NNG_OPT_RCVTIMEO, true)
    else if nnopt = NN_SNDTIMEO then .ok (NNG_OPT_SNDTIMEO, true)
    else .error ENOPROTOOPT
  else if nnlevel = NN_REQ then
    if nnopt = NN_REQ_RESEND_IVL then .ok (NNG_OPT_RESENDTIME, true)
    else .error ENOPROTOOPT
  else if nnlevel = NN_SUB then
    if nnopt = NN_SUB_SUBSCRIBE then .ok (NNG_OPT_SUBSCRIBE, false)
    else if nnopt = NN_SUB_UNSUBSCRIBE then .ok (NNG_OPT_UNSUBSCRIBE, false)
    else .error ENOPROTOOPT
  else if nnlevel = NN_SURVEYOR then
    -- missing break in the source: both branches end in the outer default
    if nnopt = NN_SURVEY_DEADLINE then .error ENOPROTOOPT
    else .error ENOPROTOOPT
  else .error ENOPROTOOPT

/-- Payload forwarded to the native `nng_setopt`: either the caller's
buffer unchanged (with its size), or the 8-byte microsecond word produced
by the millisecond conversion. -/
inductive SetPayload
  | raw (sz : Nat)
  | usec (w : Nat)
deriving DecidableEq

/-- `nn_setsockopt` (`nng_compat.c:538-656`): translation, optional
millisecond conversion (`usec = *(int *) valp; usec *= 1000;` in `uint64_t`
arithmetic, i.e. reduction modulo 2^64), then the forwarded native call
`(option, size, payload)`.  `v` is the mathematical value of the `int` the
caller's buffer holds (read only when the conversion path takes it); the
final native `nng_setopt` itself is an assumed-correct external primitive,
so the embedding returns the call it receives. -/
def nn_setsockopt (nnlevel nnopt : Nat) (sz : Nat) (v : Int) :
    Except Nat (Nat × Nat × SetPayload) :=
  match nn_setsockopt_translate nnlevel nnopt with
  | .error e => .error e
  | .ok (opt, mscvt) =>
      if mscvt then
        if sz ≠ 4 then .error EINVAL
        else .ok (opt, 8, .usec (((v % (2 ^ 64 : Int)).toNat * 1000) % 2 ^ 64))
      else .ok (opt, sz, .raw sz)

/-! ## Native message model

The native message object lives outside this slice (spec section 4, "OUT OF
SCOPE ... the native message object's allocation/resize/header primitives").
Modelled from the spec: section 6 lists the consumed primitives
(allocate, free, resize, body-pointer, body-length, trim-bytes,
prepend-bytes, append-header-bytes) and section 8 property 2 fixes resize's
preservation.  A message is a physical body buffer plus a trim offset; the
compat shim relies on `nng_msg_trim` leaving the trimmed prefix physically
in place, which this model makes explicit. -/

structure NNMsg where
  buf : List Nat
  off : Nat
  header : List Nat
deriving DecidableEq

/-- Modelled from the spec: `allocate(&msg, size)` yields a zeroed body of
`size` bytes and an empty header. -/
def nng_msg_alloc (sz : Nat) : NNMsg :=
  ⟨List.replicate sz 0, 0, []⟩

def nng_msg_body (m : NNMsg) : List Nat :=
  m.buf.drop m.off

def nng_msg_len (m : NNMsg) : Nat :=
  (nng_msg_body m).length

/-- Modelled from the spec: `trim-bytes(msg, n)` removes `n` bytes from the
front of the body; the bytes stay physically in place before the new body
start (the compat layer depends on exactly this). -/
def nng_msg_trim (m : NNMsg) (n : Nat) : NNMsg :=
  ⟨m.buf, m.off + n, m.header⟩

/-- Modelled from the spec: `resize(msg, size)` sets the body length to
`size`, preserving the first `min (old, size)` bytes (spec, testable
property 2), zero-filling growth. -/
def nng_msg_realloc (m : NNMsg) (sz : Nat) : NNMsg :=
  ⟨m.buf.take m.off ++
     ((nng_msg_body m).take sz ++ List.replicate (sz - nng_msg_len m) 0),
   m.off, m.header⟩

/-- A raw memory store at the body start, as in
`*(nng_msg **) (nng_msg_body(msg)) = msg;`. -/
def writeBody (m : NNMsg) (data : List Nat) : NNMsg :=
  ⟨m.buf.take m.off ++ data ++ m.buf.drop (m.off + data.length), m.off, m.header⟩

/-- Modelled from the spec: `prepend-bytes(msg, data, n)` inserts bytes at
the body start. -/
def nng_msg_prepend (m : NNMsg) (data : List Nat) : NNMsg :=
  ⟨m.buf.take m.off ++ data ++ m.buf.drop m.off, m.off, m.header⟩

/-- Modelled from the spec: `append-header-bytes(msg, data, n)`. -/
def nng_msg_append_header (m : NNMsg) (data : List Nat) : NNMsg :=
  ⟨m.buf, m.off, m.header ++ data⟩

/-- Little-endian byte image of the 64-bit native handle value stamped into
the hidden slot. -/
def le64 (h : Nat) : List Nat :=
  [h % 256, h / 256 % 256, h / 256 ^ 2 % 256, h / 256 ^ 3 % 256,
   h / 256 ^ 4 % 256, h / 256 ^ 5 % 256, h / 256 ^ 6 % 256, h / 256 ^ 7 % 256]

/-- A legacy envelope: the native message together with the value of its
handle.  The C code recovers the handle by reading the hidden word
immediately before the visible pointer; the model keeps the pair and
states the stamp (`hiddenWord = le64 handle`) as the checked invariant. -/
structure NNEnv where
  handle : Nat
  msg : NNMsg
deriving DecidableEq

/-- The 8 bytes immediately preceding the visible body pointer. -/
def hiddenWord (m : NNMsg) : List Nat :=
  (m.buf.drop (m.off - PTRSZ)).take PTRSZ

/-- Native calls the shim may issue, recorded in order. -/
inductive NCall
  | recvmsg
  | sendmsg
  | msgAlloc (sz : Nat)
  | msgRealloc (sz : Nat)
  | msgFree
deriving DecidableEq

/-! ## Message envelope manager (`nn_allocmsg`, `nn_reallocmsg`) -/

/-- `nn_allocmsg` (`nng_compat.c:177-205`).  `h` is the handle value the
native allocator assigns on success and `allocRv` its return code (0 for
success).  Returns the result together with the trace of native calls. -/
def nn_allocmsg (size : Nat) (ty : Int) (h : Nat) (allocRv : Nat) :
    Except Nat NNEnv × List NCall :=
  if ty ≠ 0 ∨ size < 1 ∨ (size + PTRSZ) % SZMOD < size then
    (.error (nn_seterror NNG_EINVAL), [])
  else if allocRv ≠ 0 then
    (.error (nn_seterror allocRv), [.msgAlloc ((size + PTRSZ) % SZMOD)])
  else
    let m := nng_msg_alloc ((size + PTRSZ) % SZMOD)
    let m := writeBody m (le64 h)
    let m := nng_msg_trim m PTRSZ
    (.ok ⟨h, m⟩, [.msgAlloc ((size + PTRSZ) % SZMOD)])

/-- `nn_reallocmsg` (`nng_compat.c:219-245`).  The C code recovers the
native handle from the hidden word before `ptr`; the model receives the
envelope (handle, message) that a well-formed pointer denotes.  `reallocRv`
is the native resize's return code; on native failure the original message
is not freed (the caller keeps ownership). -/
def nn_reallocmsg (env : NNEnv) (len : Nat) (reallocRv : Nat) :
    Except Nat NNEnv × List NCall :=
  if (len + PTRSZ) % SZMOD < len then
    (.error (nn_seterror NNG_EINVAL), [])
  else if reallocRv ≠ 0 then
    (.error (nn_seterror reallocRv), [.msgRealloc ((len + PTRSZ) % SZMOD)])
  else
    let m := nng_msg_realloc env.msg ((len + PTRSZ) % SZMOD)
    let m := writeBody m (le64 env.handle)
    let m := nng_msg_trim m PTRSZ
    (.ok ⟨env.handle, m⟩, [.msgRealloc ((len + PTRSZ) % SZMOD)])

instance {ε α : Type} [DecidableEq ε] [DecidableEq α] : DecidableEq (Except ε α) :=
  fun a b =>
    match a, b with
    | .ok x, .ok y => if h : x = y then .isTrue (by rw [h]) else .isFalse (by simp [h])
    | .error x, .error y => if h : x = y then .isTrue (by rw [h]) else .isFalse (by simp [h])
    | .ok _, .error _ => .isFalse (by simp)
    | .error _, .ok _ => .isFalse (by simp)

/-! ## Scatter/gather receive (`nn_recvmsg`) -/

/-- A receive-side iovec: only its requested length matters (the copied
bytes are reported as outputs). -/
structure RIov where
  iov_len : Nat
deriving DecidableEq

/-- The copy-out loop of `nn_recvmsg` (`nng_compat.c:376-389`): walks the
iovecs with a running body pointer `ptr` and remaining count `len`,
copying `n = min(iov_len, len)` bytes into each buffer; an `NN_MSG`
sentinel length inside the loop is forbidden and aborts with an error. -/
def nn_recv_copyout (ptr : List Nat) (len : Nat) (iovs : List RIov) :
    Except Unit (List (List Nat)) :=
  match iovs with
  | [] => .ok []
  | iv :: rest =>
      if iv.iov_len = NN_MSG then .error ()
      else
        let n := if iv.iov_len > len then len else iv.iov_len
        (nn_recv_copyout (ptr.drop n) (len - n) rest).map (fun bs => ptr.take n :: bs)

/-- Modelled from the missing compat header: `NN_CMSG_SPACE(len)` =
8-byte-aligned `len` plus the aligned `struct nn_cmsghdr`
(`size_t` + two `int`, 16 bytes). -/
def NN_CMSG_SPACE (l : Nat) : Nat :=
  (l + 7) / 8 * 8 + 16

/-- What `nn_recvmsg` leaves in the caller's control buffer. -/
inductive CtrlOut
  | noCtrl
  | fixedSkipped (zeroed : Nat)
  | fixedWritten (zeroed : Nat) (cmsgLen : Nat) (lvl ty : Nat) (data : List Nat)
  | dynWritten (env : NNEnv) (cmsgLen : Nat) (lvl ty : Nat) (data : List Nat)
deriving DecidableEq

/-- The message the native `nng_recvmsg` delivers: its handle value, header
bytes and body bytes. -/
structure RecvIn where
  h : Nat
  header : List Nat
  body : List Nat
deriving DecidableEq

/-- The receive-side `struct nn_msghdr`: iovec count (a C `int`, possibly
negative and independent of the array), the iovec array, and
`some controllen` when `msg_control` is non-NULL. -/
structure RMsghdr where
  msg_iovlen : Int
  iovs : List RIov
  msg_control : Option Nat
deriving DecidableEq

/-- Control-information population (`nng_compat.c:400-440`).  `ctrlH` is
the handle the native allocator would assign to the dynamic control
envelope and `ctrlAllocRv` that allocation's return code.  Returns the
control outcome (or the native allocation failure) plus native calls. -/
def recvCtrl (rm : RecvIn) (ctl : Option Nat) (ctrlH ctrlAllocRv : Nat) :
    Except Nat CtrlOut × List NCall :=
  match ctl with
  | none => (.ok .noCtrl, [])
  | some tlen =>
      let clen := NN_CMSG_SPACE rm.header.length
      if tlen = NN_MSG then
        if ctrlAllocRv ≠ 0 then
          (.error ctrlAllocRv, [.msgAlloc (clen + PTRSZ)])
        else
          let nm := nng_msg_alloc (clen + PTRSZ)
          let nm := writeBody nm (le64 ctrlH)
          let nm := nng_msg_trim nm PTRSZ
          (.ok (.dynWritten ⟨ctrlH, nm⟩ rm.header.length PROTO_SP SP_HDR rm.header),
           [.msgAlloc (clen + PTRSZ)])
      else
        if clen ≤ tlen then
          (.ok (.fixedWritten (min tlen 16) rm.header.length PROTO_SP SP_HDR rm.header), [])
        else
          (.ok (.fixedSkipped (min tlen 16)), [])

/-- Outcome of `nn_recvmsg`: errno or returned length, the bytes copied
into each fixed iovec, the envelope adopted by the single-dynamic-buffer
path, the control outcome, and the native call trace. -/
structure RecvOut where
  result : Except Nat Nat
  bufs : List (List Nat)
  adopted : Option NNEnv
  ctrl : CtrlOut
  trace : List NCall
deriving DecidableEq

/-- `nn_recvmsg` (`nng_compat.c:333-446`).  `recvRv` is the outcome of the
native `nng_recvmsg`, `prependRv` the return code of the
`nng_msg_prepend` used by the dynamic path.  On the forbidden-sentinel
error inside the copy loop the C code has already written the earlier
buffers; the model reports no buffers in that case, since only the error,
the trace and the free are observed. -/
def nn_recvmsg (flags : Int) (mh : Option RMsghdr) (recvRv : Except Nat RecvIn)
    (prependRv : Nat) (ctrlH ctrlAllocRv : Nat) : RecvOut :=
  if ¬(flags = 0 ∨ flags = NN_DONTWAIT) then
    ⟨.error EINVAL, [], none, .noCtrl, []⟩
  else
    match mh with
    | none => ⟨.error EINVAL, [], none, .noCtrl, []⟩
    | some hdr =>
        if hdr.msg_iovlen < 0 then ⟨.error EMSGSIZE, [], none, .noCtrl, []⟩
        else
          match recvRv with
          | .error rv => ⟨.error (nn_seterror rv), [], none, .noCtrl, [.recvmsg]⟩
          | .ok rm =>
              if hdr.msg_iovlen = 1 ∧ hdr.iovs.head?.map RIov.iov_len = some NN_MSG then
                if prependRv ≠ 0 then
                  ⟨.error (nn_seterror prependRv), [], none, .noCtrl, [.recvmsg, .msgFree]⟩
                else
                  let m := nng_msg_trim (nng_msg_prepend ⟨rm.body, 0, rm.header⟩ (le64 rm.h)) PTRSZ
                  let env : NNEnv := ⟨rm.h, m⟩
                  match recvCtrl rm hdr.msg_control ctrlH ctrlAllocRv with
                  | (.error rv, tr) =>
                      -- the source frees the message here even though its
                      -- pointer was already stored into the caller's iovec
                      ⟨.error (nn_seterror rv), [], some env, .noCtrl,
                       [.recvmsg] ++ tr ++ [.msgFree]⟩
                  | (.ok c, tr) =>
                      ⟨.ok (nng_msg_len m), [], some env, c, [.recvmsg] ++ tr⟩
              else
                match nn_recv_copyout rm.body rm.body.length
                    (hdr.iovs.take hdr.msg_iovlen.toNat) with
                | .error _ => ⟨.error EINVAL, [], none, .noCtrl, [.recvmsg, .msgFree]⟩
                | .ok bufs =>
                    match recvCtrl rm hdr.msg_control ctrlH ctrlAllocRv with
                    | (.error rv, tr) =>
                        ⟨.error (nn_seterror rv), bufs, none, .noCtrl,
                         [.recvmsg] ++ tr ++ [.msgFree]⟩
                    | (.ok c, tr) =>
                        ⟨.ok rm.body.length, bufs, none, c,
                         [.recvmsg] ++ tr ++ [.msgFree]⟩

/-! ## Scatter/gather send (`nn_sendmsg`) -/

/-- A send-side iovec: its declared length, the bytes actually readable at
its base pointer, and—when the base points into a legacy envelope—the
envelope whose hidden word precedes it. -/
structure SIov where
  iov_len : Nat
  bytes : List Nat
  env : Option NNEnv
deriving DecidableEq

/-- Send-side control data: declared length, readable bytes, and the
envelope the stored pointer designates when the length is the `NN_MSG`
sentinel. -/
structure SCtrl where
  msg_controllen : Nat
  bytes : List Nat
  env : Option NNEnv
deriving DecidableEq

structure SMsghdr where
  msg_iovlen : Int
  iovs : List SIov
  ctrl : Option SCtrl
deriving DecidableEq

/-- Result of `nn_sendmsg`: a returned value (errno or byte count), or
undefined behavior when the C source reads or writes out of bounds (an
unchecked `memcpy` past a buffer or past the gathered allocation). -/
inductive SendRes
  | ret (r : Except Nat Nat)
  | undef
deriving DecidableEq

structure SendOut where
  result : SendRes
  trace : List NCall
  freedMsg : Bool
  freedCmsg : Bool
deriving DecidableEq

/-- The gather size loop (`sz += mh->msg_iov[i].iov_len` in `size_t`
arithmetic). -/
def sendGatherSize (iovs : List SIov) : Nat :=
  iovs.foldl (fun a iv => (a + iv.iov_len) % SZMOD) 0

/-- The gather copy loop: each `memcpy` reads `iov_len` bytes from the
buffer base; reading past the readable bytes is undefined behavior,
reported as `none`. -/
def sendGatherBytes (iovs : List SIov) : Option (List Nat) :=
  match iovs with
  | [] => some []
  | iv :: rest =>
      if iv.iov_len ≤ iv.bytes.length then
        match sendGatherBytes rest with
        | some bs => some (iv.bytes.take iv.iov_len ++ bs)
        | none => none
      else none

/-- Final send stage of `nn_sendmsg` (`nng_compat.c:521-534`): records the
body length, performs the native send, frees the gathered message on
failure unless it was adopted, and frees the dynamic control envelope only
after a successful send. -/
def sendLast (msg : NNMsg) (keep : Bool) (cmsg : Option NNEnv) (tr : List NCall)
    (sendRv : Nat) : SendOut :=
  if sendRv ≠ 0 then
    ⟨.ret (.error (nn_seterror sendRv)),
     tr ++ [.sendmsg] ++ (if keep then [] else [.msgFree]), !keep, false⟩
  else
    ⟨.ret (.ok (nng_msg_len msg)),
     tr ++ [.sendmsg] ++ (match cmsg with | some _ => [.msgFree] | none => []),
     false, cmsg.isSome⟩

/-- Control stage of `nn_sendmsg` (`nng_compat.c:499-519`): appends the
control bytes as the message header; for sentinel-length control data the
bytes and length come from the designated control envelope, which is saved
for release after a successful send. -/
def sendFinish (msg : NNMsg) (keep : Bool) (tr0 : List NCall)
    (ctrl : Option SCtrl) (appendRv sendRv : Nat) : SendOut :=
  match ctrl with
  | none => sendLast msg keep none tr0 sendRv
  | some c =>
      if c.msg_controllen = NN_MSG then
        match c.env with
        | none => ⟨.undef, tr0, false, false⟩
        | some ce =>
            if appendRv ≠ 0 then
              ⟨.ret (.error (nn_seterror appendRv)),
               tr0 ++ (if keep then [] else [.msgFree]), !keep, false⟩
            else
              sendLast (nng_msg_append_header msg (nng_msg_body ce.msg)) keep
                (some ce) tr0 sendRv
      else
        if c.msg_controllen ≤ c.bytes.length then
          if appendRv ≠ 0 then
            ⟨.ret (.error (nn_seterror appendRv)),
             tr0 ++ (if keep then [] else [.msgFree]), !keep, false⟩
          else
            sendLast (nng_msg_append_header msg (c.bytes.take c.msg_controllen)) keep
              none tr0 sendRv
        else ⟨.undef, tr0, false, false⟩

/-- `nn_sendmsg` (`nng_compat.c:449-535`).  `freshH` is the handle of the
gather-allocated message, `allocRv`/`appendRv`/`sendRv` the native return
codes of `nng_msg_alloc`, `nng_msg_append_header` and `nng_sendmsg`. -/
def nn_sendmsg (flags : Int) (mh : Option SMsghdr) (_freshH : Nat)
    (allocRv appendRv sendRv : Nat) : SendOut :=
  if ¬(flags = 0 ∨ flags = NN_DONTWAIT) then ⟨.ret (.error EINVAL), [], false, false⟩
  else
    match mh with
    | none => ⟨.ret (.error EINVAL), [], false, false⟩
    | some hdr =>
        if hdr.msg_iovlen < 0 then ⟨.ret (.error EMSGSIZE), [], false, false⟩
        else
          if hdr.msg_iovlen = 1 ∧ hdr.iovs.head?.map SIov.iov_len = some NN_MSG then
            match hdr.iovs.head? with
            | some iv =>
                (match iv.env with
                 | some e => sendFinish e.msg true [] hdr.ctrl appendRv sendRv
                 | none => ⟨.undef, [], false, false⟩)
            | none => ⟨.undef, [], false, false⟩
          else
            let ivs := hdr.iovs.take hdr.msg_iovlen.toNat
            let szv := sendGatherSize ivs
            if allocRv ≠ 0 then
              ⟨.ret (.error (nn_seterror allocRv)), [.msgAlloc szv], false, false⟩
            else
              match sendGatherBytes ivs with
              | none => ⟨.undef, [.msgAlloc szv], false, false⟩
              | some bs =>
                  if szv = bs.length then
                    sendFinish (writeBody (nng_msg_alloc szv) bs) false
                      [.msgAlloc szv] hdr.ctrl appendRv sendRv
                  else ⟨.undef, [.msgAlloc szv], false, false⟩

/-! ## One-time initializer (`nni_plat_init`, win_thread.c:149-175)

A small-step interleaving semantics over the shared variables `initing`,
`inited` and a helper-invocation counter.  Per-thread program counters:
0 = fast-path test of `inited`; 1 = the
`InterlockedCompareExchange(&initing, 0, 1)` loop head (the Windows
argument order is (destination, exchange, comparand): the call compares
`initing` with 1 and stores 0 on equality, returning the old value; the
loop retries, after `Sleep(1)`, while the old value was nonzero);
2 = the `if (!inited)` test; 3 = the `helper()` call; 4 = `inited = 1`;
5 = `InterlockedExchange(&initing, 0)`; 6 = returned. -/

structure OnceState where
  initing : Nat
  inited : Nat
  calls : Nat
  pcs : List Nat
deriving DecidableEq

def setPc (s : OnceState) (t pc : Nat) : OnceState :=
  { s with pcs := s.pcs.set t pc }

/-- One atomic step of thread `t` (no-op for a finished or unknown
thread). -/
def onceStep (s : OnceState) (t : Nat) : OnceState :=
  match s.pcs.get? t with
  | none => s
  | some pc =>
      if pc = 0 then
        if s.inited ≠ 0 then setPc s t 6 else setPc s t 1
      else if pc = 1 then
        let old := s.initing
        let s := if old = 1 then { s with initing := 0 } else s
        if old ≠ 0 then setPc s t 1 else setPc s t 2
      else if pc = 2 then
        if s.inited = 0 then setPc s t 3 else setPc s t 5
      else if pc = 3 then
        setPc { s with calls := s.calls + 1 } t 4
      else if pc = 4 then
        setPc { s with inited := 1 } t 5
      else if pc = 5 then
        setPc { s with initing := 0 } t 6
      else s

/-- Run a schedule (list of thread ids) from a state. -/
def onceRun (s : OnceState) (sched : List Nat) : OnceState :=
  sched.foldl onceStep s

/-- Two threads entering `nni_plat_init` before any initialization. -/
def onceInit2 : OnceState :=
  ⟨0, 0, 0, [0, 0]⟩

/-- Transparent characterization of the copy-out loop used to state C7:
walking the capacities in order, each buffer receives the next
`min (remaining, capacity)` bytes of the body. -/
def recvChunks (body : List Nat) (caps : List Nat) : List (List Nat) :=
  match caps with
  | [] => []
  | c :: cs => body.take c :: recvChunks (body.drop c) cs

/-! ## Helper lemmas -/

lemma le64_length (h : Nat) : (le64 h).length = 8 := rfl

lemma take_len {α : Type} (l₁ l₂ : List α) (n : Nat) (h : l₁.length = n) :
    (l₁ ++ l₂).take n = l₁ := by
  subst h; exact List.take_left l₁ l₂

lemma drop_len {α : Type} (l₁ l₂ : List α) (n : Nat) (h : l₁.length = n) :
    (l₁ ++ l₂).drop n = l₂ := by
  subst h; exact List.drop_left l₁ l₂

lemma nn_seterror_einval : nn_seterror NNG_EINVAL = EINVAL := by decide

lemma nn_seterror_enomem : nn_seterror NNG_ENOMEM = ENOMEM := by decide

/-- The millisecond-to-microsecond word computed by `nn_setsockopt`
(`usec = *(int *) valp; usec *= 1000;` in `uint64_t` arithmetic) equals the
64-bit two's-complement image of `v * 1000`. -/
lemma usec_word (v : Int) :
    ((v % (18446744073709551616 : Int)).toNat * 1000) % 18446744073709551616
      = ((v * 1000) % (18446744073709551616 : Int)).toNat := by
  obtain ⟨n, hn⟩ : ∃ n : Nat, v % (18446744073709551616 : Int) = ↑n :=
    ⟨(v % (18446744073709551616 : Int)).toNat,
     (Int.toNat_of_nonneg (Int.emod_nonneg v (by norm_num))).symm⟩
  have hv : (18446744073709551616 : Int) * (v / 18446744073709551616)
      + v % 18446744073709551616 = v := Int.ediv_add_emod v 18446744073709551616
  have h1 : v * 1000 = v % (18446744073709551616 : Int) * 1000
      + (18446744073709551616 : Int) * (v / (18446744073709551616 : Int) * 1000) := by
    linear_combination -1000 * hv
  rw [h1, Int.add_mul_emod_self_left, hn]
  norm_cast

/-! ## Claim theorems -/

/-- C9: for every entry (nativeCode, posixCode) of the error table,
translating the native code as `nn_seterror` does and then performing the
reverse lookup on the resulting POSIX code, as `nn_strerror` does, selects
the same table entry, recovering the original native code. -/
theorem c9_errno_roundtrip :
    ∀ e ∈ nn_errnos, nn_seterror e.1 = e.2 ∧ nn_strerror_lookup e.2 = some e := by
  decide

theorem c9_errno_roundtrip_witness :
    nn_seterror NNG_ESTATE = EFSM ∧ nn_strerror_lookup EFSM = some (NNG_ESTATE, EFSM) :=
  c9_errno_roundtrip (NNG_ESTATE, EFSM) (by decide)

/-- C1: contrary to the claim, a `nn_setsockopt` call with level
`NN_SURVEYOR` and option `NN_SURVEY_DEADLINE` always fails as unsupported
(`ENOPROTOOPT`) and forwards nothing, for every size and value: the
`NN_SURVEYOR` case of the C switch lacks a `break` and falls through into
the outer `default`. -/
theorem c1_survey_deadline_unsupported :
    ∀ (sz : Nat) (v : Int),
      nn_setsockopt NN_SURVEYOR NN_SURVEY_DEADLINE sz v = .error ENOPROTOOPT :=
  fun _ _ => rfl

/-- C2: contrary to the claim, two threads entering `nni_plat_init`
concurrently can both run the helper: the
`InterlockedCompareExchange(&initing, 0, 1)` call has its exchange and
comparand arguments transposed, so `initing` never becomes 1 and provides
no mutual exclusion.  Under the exhibited schedule both threads return
(pc 6) and the helper has executed twice. -/
theorem c2_once_double_init :
    (onceRun onceInit2 [0, 0, 1, 1, 0, 0, 1, 1, 0, 0, 1, 1]).calls = 2 ∧
    (onceRun onceInit2 [0, 0, 1, 1, 0, 0, 1, 1, 0, 0, 1, 1]).pcs = [6, 6] ∧
    (onceRun onceInit2 [0, 0, 1, 1, 0, 0, 1, 1, 0, 0, 1, 1]).inited = 1 := by
  decide

/-- C10: for every size and every nonzero type, `nn_allocmsg` fails with
`EINVAL` without any native allocation; only type 0 can succeed. -/
theorem c10_allocmsg_type_guard :
    ∀ (size : Nat) (ty : Int) (h rv : Nat),
      (ty ≠ 0 → nn_allocmsg size ty h rv = (.error EINVAL, [])) ∧
      (∀ env, (nn_allocmsg size ty h rv).1 = .ok env → ty = 0) := by
  intro size ty h rv
  constructor
  · intro hty
    simp [nn_allocmsg, hty, nn_seterror_einval]
  · intro env henv
    by_contra hne
    simp [nn_allocmsg, hne] at henv

theorem c10_allocmsg_type_guard_witness :
    nn_allocmsg 5 1 0 0 = (.error EINVAL, []) ∧
    (∀ env, (nn_allocmsg 5 1 0 0).1 = .ok env → (1 : Int) = 0) :=
  ⟨(c10_allocmsg_type_guard 5 1 0 0).1 (by decide),
   (c10_allocmsg_type_guard 5 1 0 0).2⟩

/-- C4: for every option translated with the millisecond-conversion flag,
`nn_setsockopt` fails with `EINVAL` (forwarding nothing) whenever the value
size differs from the 32-bit `int`; with size exactly 4 and value `v` it
forwards an 8-byte payload holding the 64-bit image of `v * 1000`
microseconds — for nonnegative `v` exactly the number `v * 1000`. -/
theorem c4_ms_option_conversion :
    ∀ (lvl opt nopt : Nat) (v : Int) (sz : Nat),
      nn_setsockopt_translate lvl opt = .ok (nopt, true) →
      -(2 ^ 31) ≤ v → v < 2 ^ 31 →
      (sz ≠ 4 → nn_setsockopt lvl opt sz v = .error EINVAL) ∧
      nn_setsockopt lvl opt 4 v
        = .ok (nopt, 8, .usec (((v * 1000) % (2 ^ 64 : Int)).toNat)) ∧
      (0 ≤ v → (((v * 1000) % (2 ^ 64 : Int)).toNat : Int) = v * 1000) := by
  intro lvl opt nopt v sz htr hlo hhi
  refine ⟨fun hsz => by simp [nn_setsockopt, htr, hsz], ?_, ?_⟩
  · simp [nn_setsockopt, htr, usec_word]
  · intro hv
    have hlt : v * 1000 < 2 ^ 64 := by nlinarith
    have hmod : (v * 1000) % (2 ^ 64 : Int) = v * 1000 :=
      Int.emod_eq_of_lt (by positivity) hlt
    rw [hmod]
    exact Int.toNat_of_nonneg (by positivity)

theorem c4_ms_option_conversion_witness :
    nn_setsockopt NN_SOL_SOCKET NN_RCVTIMEO 8 5 = .error EINVAL ∧
    nn_setsockopt NN_SOL_SOCKET NN_RCVTIMEO 4 5 = .ok (NNG_OPT_RCVTIMEO, 8, .usec 5000) := by
  have h := c4_ms_option_conversion NN_SOL_SOCKET NN_RCVTIMEO NNG_OPT_RCVTIMEO 5 8
    (by decide) (by decide) (by decide)
  refine ⟨h.1 (by decide), ?_⟩
  have hval : (((5 * 1000 : Int) % (2 ^ 64 : Int)).toNat) = 5000 := by decide
  have h2 := h.2.1
  rw [hval] at h2
  exact h2

/-! ## Envelope length and stamping lemmas -/

lemma take_length_eq (m : NNMsg) (h : m.off ≤ m.buf.length) :
    (m.buf.take m.off).length = m.off := by
  simp [List.length_take]; omega

/-- Stamping 8 bytes at the body start and trimming them off shortens the
body by 8 bytes. -/
lemma writeBody_trim_len (m : NNMsg) (d : List Nat) (hoff : m.off ≤ m.buf.length)
    (hd : d.length = 8) (hlen : 8 ≤ nng_msg_len m) :
    nng_msg_len (nng_msg_trim (writeBody m d) PTRSZ) = nng_msg_len m - 8 := by
  have hlen' : 8 ≤ m.buf.length - m.off := by
    simpa [nng_msg_len, nng_msg_body] using hlen
  simp only [nng_msg_len, nng_msg_body, nng_msg_trim, writeBody, PTRSZ, hd,
    List.length_drop, List.length_append, List.length_take]
  omega

/-- After stamping and trimming, the hidden word immediately preceding the
body is exactly the stamped bytes. -/
lemma writeBody_trim_hidden (m : NNMsg) (d : List Nat) (hoff : m.off ≤ m.buf.length)
    (hd : d.length = 8) :
    hiddenWord (nng_msg_trim (writeBody m d) PTRSZ) = d := by
  have htl : (m.buf.take m.off).length = m.off := take_length_eq m hoff
  simp only [hiddenWord, nng_msg_trim, writeBody, PTRSZ, Nat.add_sub_cancel]
  rw [List.append_assoc, drop_len _ _ _ htl, take_len _ _ _ hd]

lemma realloc_props (m : NNMsg) (sz : Nat) (hoff : m.off ≤ m.buf.length) :
    nng_msg_len (nng_msg_realloc m sz) = sz ∧
    (nng_msg_realloc m sz).off = m.off ∧
    (nng_msg_realloc m sz).off ≤ (nng_msg_realloc m sz).buf.length := by
  refine ⟨?_, rfl, ?_⟩ <;>
    simp only [nng_msg_len, nng_msg_body, nng_msg_realloc, List.length_drop,
      List.length_append, List.length_take, List.length_replicate] <;>
    omega

/-- C5: with the legacy type 0, `nn_allocmsg` fails with `EINVAL` exactly
when the size is zero or `size + handleWidth` overflows `size_t`; every
successful call yields an envelope whose visible (post-trim) length is
exactly `size`, with the native handle stamped in the hidden word
immediately preceding the returned pointer. -/
theorem c5_allocmsg_contract :
    ∀ (size h rv : Nat), size < SZMOD → (rv = 0 ∨ rv = NNG_ENOMEM) →
      (((nn_allocmsg size 0 h rv).1 = .error EINVAL) ↔
        (size = 0 ∨ SZMOD ≤ size + PTRSZ)) ∧
      (∀ env, (nn_allocmsg size 0 h rv).1 = .ok env →
        nng_msg_len env.msg = size ∧ hiddenWord env.msg = le64 h ∧ env.handle = h) := by
  intro size h rv hsz hrv
  have hiff : (size < 1 ∨ (size + PTRSZ) % SZMOD < size) ↔
      (size = 0 ∨ SZMOD ≤ size + PTRSZ) := by
    simp only [SZMOD, PTRSZ] at *
    omega
  by_cases hg : size < 1 ∨ (size + PTRSZ) % SZMOD < size
  · have hres : nn_allocmsg size 0 h rv = (.error EINVAL, []) := by
      unfold nn_allocmsg
      rw [if_pos (Or.inr hg), nn_seterror_einval]
    refine ⟨⟨fun _ => hiff.mp hg, fun _ => by rw [hres]⟩, ?_⟩
    intro env henv
    rw [hres] at henv
    exact absurd henv (by simp)
  · have hmod : (size + PTRSZ) % SZMOD = size + PTRSZ := by
      simp only [SZMOD, PTRSZ] at *
      omega
    have hcond : ¬((0 : Int) ≠ 0 ∨ size < 1 ∨ (size + PTRSZ) % SZMOD < size) := by
      push_neg
      push_neg at hg
      exact ⟨rfl, hg.1, hg.2⟩
    rcases hrv with h0 | hne
    · subst h0
      have hres : nn_allocmsg size 0 h 0 =
          (.ok ⟨h, nng_msg_trim (writeBody (nng_msg_alloc (size + PTRSZ)) (le64 h)) PTRSZ⟩,
           [.msgAlloc (size + PTRSZ)]) := by
        unfold nn_allocmsg
        rw [if_neg hcond, if_neg (by simp), hmod]
      refine ⟨⟨fun hl => ?_, fun hr => absurd (hiff.mpr hr) hg⟩, ?_⟩
      · rw [hres] at hl
        exact absurd hl (by simp)
      · intro env henv
        rw [hres] at henv
        simp only [Except.ok.injEq] at henv
        subst henv
        have halloc : (nng_msg_alloc (size + PTRSZ)).off ≤
            (nng_msg_alloc (size + PTRSZ)).buf.length := by
          simp [nng_msg_alloc]
        have hblen : 8 ≤ nng_msg_len (nng_msg_alloc (size + PTRSZ)) := by
          have : ¬(size < 1 ∨ (size + PTRSZ) % SZMOD < size) := hg
          simp only [nng_msg_len, nng_msg_body, nng_msg_alloc, List.drop_nil,
            List.length_drop, List.length_replicate, PTRSZ]
          omega
        refine ⟨?_, ?_, rfl⟩
        · rw [writeBody_trim_len _ _ halloc (le64_length h) hblen]
          simp only [nng_msg_len, nng_msg_body, nng_msg_alloc, List.length_drop,
            List.length_replicate, PTRSZ]
          omega
        · exact writeBody_trim_hidden _ _ halloc (le64_length h)
    · subst hne
      have hres : nn_allocmsg size 0 h NNG_ENOMEM =
          (.error ENOMEM, [.msgAlloc ((size + PTRSZ) % SZMOD)]) := by
        unfold nn_allocmsg
        rw [if_neg hcond, if_pos (by decide), nn_seterror_enomem]
      refine ⟨⟨fun hl => ?_, fun hr => absurd (hiff.mpr hr) hg⟩, ?_⟩
      · rw [hres] at hl
        simp only [Except.error.injEq] at hl
        exact absurd hl (by decide)
      · intro env henv
        rw [hres] at henv
        exact absurd henv (by simp)

theorem c5_allocmsg_contract_witness :
    (((nn_allocmsg 3 0 7 0).1 = .error EINVAL) ↔ ((3 : Nat) = 0 ∨ SZMOD ≤ 3 + PTRSZ)) ∧
    (∀ env, (nn_allocmsg 3 0 7 0).1 = .ok env →
      nng_msg_len env.msg = 3 ∧ hiddenWord env.msg = le64 7 ∧ env.handle = 7) :=
  c5_allocmsg_contract 3 7 0 (by decide) (Or.inl rfl)

/-- C6: `nn_reallocmsg` fails with `EINVAL` when `newSize + handleWidth`
overflows, before any native call; on native-resize failure it returns the
error leaving the message unfreed (the caller keeps ownership); on success
it returns an envelope with the same handle, the hidden word re-stamped at
the (possibly new) location, and visible length exactly `newSize`. -/
theorem c6_reallocmsg_contract :
    ∀ (env : NNEnv) (len rv : Nat), len < SZMOD →
      env.msg.off ≤ env.msg.buf.length → (rv = 0 ∨ rv = NNG_ENOMEM) →
      (SZMOD ≤ len + PTRSZ → nn_reallocmsg env len rv = (.error EINVAL, [])) ∧
      (len + PTRSZ < SZMOD → rv ≠ 0 →
        nn_reallocmsg env len rv = (.error ENOMEM, [.msgRealloc (len + PTRSZ)]) ∧
        .msgFree ∉ (nn_reallocmsg env len rv).2) ∧
      (len + PTRSZ < SZMOD → rv = 0 →
        ∃ env', nn_reallocmsg env len rv = (.ok env', [.msgRealloc (len + PTRSZ)]) ∧
          nng_msg_len env'.msg = len ∧ hiddenWord env'.msg = le64 env.handle ∧
          env'.handle = env.handle) := by
  intro env len rv hlen hoff hrv
  refine ⟨?_, ?_, ?_⟩
  · intro hov
    have hc : (len + PTRSZ) % SZMOD < len := by
      simp only [SZMOD, PTRSZ] at *
      omega
    unfold nn_reallocmsg
    rw [if_pos hc, nn_seterror_einval]
  · intro hno hrvne
    have hc : ¬((len + PTRSZ) % SZMOD < len) := by
      simp only [SZMOD, PTRSZ] at *
      omega
    have hmod : (len + PTRSZ) % SZMOD = len + PTRSZ := by
      simp only [SZMOD, PTRSZ] at *
      omega
    have hrve : rv = NNG_ENOMEM := hrv.resolve_left hrvne
    subst hrve
    have hres : nn_reallocmsg env len NNG_ENOMEM =
        (.error ENOMEM, [.msgRealloc (len + PTRSZ)]) := by
      unfold nn_reallocmsg
      rw [if_neg hc, if_pos (by decide), hmod, nn_seterror_enomem]
    exact ⟨hres, by rw [hres]; simp⟩
  · intro hno h0
    subst h0
    have hc : ¬((len + PTRSZ) % SZMOD < len) := by
      simp only [SZMOD, PTRSZ] at *
      omega
    have hmod : (len + PTRSZ) % SZMOD = len + PTRSZ := by
      simp only [SZMOD, PTRSZ] at *
      omega
    obtain ⟨hl1, _hl2, hl3⟩ := realloc_props env.msg (len + PTRSZ) hoff
    refine ⟨⟨env.handle,
        nng_msg_trim (writeBody (nng_msg_realloc env.msg (len + PTRSZ))
          (le64 env.handle)) PTRSZ⟩, ?_, ?_, ?_, rfl⟩
    · unfold nn_reallocmsg
      rw [if_neg hc, if_neg (by simp), hmod]
    · have h8 : 8 ≤ nng_msg_len (nng_msg_realloc env.msg (len + PTRSZ)) := by
        rw [hl1]
        simp only [PTRSZ]
        omega
      rw [writeBody_trim_len _ _ hl3 (le64_length _) h8, hl1]
      simp only [PTRSZ]
      omega
    · exact writeBody_trim_hidden _ _ hl3 (le64_length _)

theorem c6_reallocmsg_contract_witness :
    (SZMOD ≤ 6 + PTRSZ →
      nn_reallocmsg ⟨7, ⟨List.replicate 12 0, 8, []⟩⟩ 6 0 = (.error EINVAL, [])) ∧
    ((6 : Nat) + PTRSZ < SZMOD → (0 : Nat) ≠ 0 →
      nn_reallocmsg ⟨7, ⟨List.replicate 12 0, 8, []⟩⟩ 6 0
          = (.error ENOMEM, [.msgRealloc (6 + PTRSZ)]) ∧
      .msgFree ∉ (nn_reallocmsg ⟨7, ⟨List.replicate 12 0, 8, []⟩⟩ 6 0).2) ∧
    ((6 : Nat) + PTRSZ < SZMOD → (0 : Nat) = 0 →
      ∃ env', nn_reallocmsg ⟨7, ⟨List.replicate 12 0, 8, []⟩⟩ 6 0
          = (.ok env', [.msgRealloc (6 + PTRSZ)]) ∧
        nng_msg_len env'.msg = 6 ∧ hiddenWord env'.msg = le64 7 ∧ env'.handle = 7) :=
  c6_reallocmsg_contract ⟨7, ⟨List.replicate 12 0, 8, []⟩⟩ 6 0 (by decide)
    (by simp) (Or.inl rfl)

/-! ## Copy-out loop lemmas -/

/-- With no forbidden sentinel, the copy-out loop delivers exactly the
`recvChunks` decomposition of the body. -/
lemma copyout_ok (ivs : List RIov) (ptr : List Nat)
    (hnm : ∀ iv ∈ ivs, iv.iov_len ≠ NN_MSG) :
    nn_recv_copyout ptr ptr.length ivs = .ok (recvChunks ptr (ivs.map RIov.iov_len)) := by
  induction ivs generalizing ptr with
  | nil => rfl
  | cons iv rest ih =>
      have hhd : ¬(iv.iov_len = NN_MSG) := hnm iv (by simp)
      have htl : ∀ x ∈ rest, x.iov_len ≠ NN_MSG := fun x hx => hnm x (by simp [hx])
      by_cases hgt : iv.iov_len > ptr.length
      · have hrec := ih (ptr.drop ptr.length) htl
        rw [List.length_drop, Nat.sub_self] at hrec
        simp only [nn_recv_copyout, recvChunks, List.map_cons, if_neg hhd, if_pos hgt]
        rw [show ptr.length - ptr.length = 0 from Nat.sub_self _, ← Nat.sub_self ptr.length]
        rw [Nat.sub_self]
        rw [hrec]
        simp only [Except.map]
        rw [List.take_length, List.take_of_length_le (le_of_lt hgt), List.drop_length,
          List.drop_eq_nil_of_le (le_of_lt hgt)]
      · have hrec := ih (ptr.drop iv.iov_len) htl
        rw [List.length_drop] at hrec
        simp only [nn_recv_copyout, recvChunks, List.map_cons, if_neg hhd, if_neg hgt]
        rw [hrec]
        simp only [Except.map]

/-- A forbidden sentinel anywhere among the iovecs aborts the copy-out
loop with an error. -/
lemma copyout_err (ivs : List RIov) (ptr : List Nat) (len : Nat)
    (hex : ∃ iv ∈ ivs, iv.iov_len = NN_MSG) :
    nn_recv_copyout ptr len ivs = .error () := by
  induction ivs generalizing ptr len with
  | nil =>
      obtain ⟨iv, hm, _⟩ := hex
      exact absurd hm (List.not_mem_nil iv)
  | cons iv rest ih =>
      by_cases hhd : iv.iov_len = NN_MSG
      · simp [nn_recv_copyout, hhd]
      · obtain ⟨x, hx, hxe⟩ := hex
        have hxr : x ∈ rest := by
          rcases List.mem_cons.mp hx with h1 | h1
          · exact absurd (h1 ▸ hxe) hhd
          · exact h1
        simp only [nn_recv_copyout, if_neg hhd]
        rw [ih _ _ ⟨x, hxr, hxe⟩]
        rfl

/-- C7: when `nn_recvmsg` copies a received body of length `L` into fixed
buffers, each buffer in order receives `min (remaining, capacity)` bytes of
the body; excess bytes are dropped (the message is freed) and the returned
length is the original `L`. -/
theorem c7_recv_copy_truncation :
    ∀ (hdr : RMsghdr) (rm : RecvIn) (pr ch car : Nat),
      hdr.msg_iovlen = hdr.iovs.length →
      (∀ iv ∈ hdr.iovs, iv.iov_len ≠ NN_MSG) →
      hdr.msg_control = none →
      nn_recvmsg 0 (some hdr) (.ok rm) pr ch car =
        ⟨.ok rm.body.length, recvChunks rm.body (hdr.iovs.map RIov.iov_len),
         none, .noCtrl, [.recvmsg, .msgFree]⟩ := by
  intro hdr rm pr ch car hlen hnm hctl
  have hnonneg : ¬(hdr.msg_iovlen < 0) := by
    rw [hlen]
    omega
  have hdyn : ¬(hdr.msg_iovlen = 1 ∧ hdr.iovs.head?.map RIov.iov_len = some NN_MSG) := by
    rintro ⟨h1, h2⟩
    match hhd : hdr.iovs with
    | [] => rw [hhd] at h2; simp at h2
    | iv :: tl =>
        rw [hhd] at h2
        simp only [List.head?_cons, Option.map_some'] at h2
        exact hnm iv (by rw [hhd]; simp) (by injection h2)
  have htak : hdr.iovs.take hdr.msg_iovlen.toNat = hdr.iovs := by
    rw [hlen]
    simp
  simp [nn_recvmsg, hnonneg, hdyn, htak, hctl, recvCtrl,
    copyout_ok hdr.iovs rm.body hnm]
  intro _ x hx hxe
  have hxmem : x ∈ hdr.iovs := by
    cases hhd : hdr.iovs with
    | nil => rw [hhd] at hx; exact absurd hx (by simp)
    | cons y t =>
        rw [hhd] at hx
        simp only [List.head?_cons, Option.some.injEq] at hx
        subst hx
        exact List.mem_cons_self _ t
  exact absurd hxe (hnm x hxmem)

theorem c7_recv_copy_truncation_witness :
    nn_recvmsg 0 (some ⟨2, [⟨4⟩, ⟨2⟩], none⟩)
        (.ok ⟨5, [], [0, 1, 2, 3, 4, 5, 6, 7, 8, 9]⟩) 0 0 0 =
      ⟨.ok 10, [[0, 1, 2, 3], [4, 5]], none, .noCtrl, [.recvmsg, .msgFree]⟩ := by
  rw [c7_recv_copy_truncation ⟨2, [⟨4⟩, ⟨2⟩], none⟩ ⟨5, [], [0, 1, 2, 3, 4, 5, 6, 7, 8, 9]⟩
    0 0 0 (by decide) (by decide) rfl]
  decide

/-! ## Send gather lemmas -/

/-- If some iovec declares more bytes than are readable at its base (as a
sentinel length necessarily does), the gather copy is undefined
behavior. -/
lemma sendGatherBytes_none : ∀ (ivs : List SIov),
    (∃ iv ∈ ivs, iv.bytes.length < iv.iov_len) → sendGatherBytes ivs = none := by
  intro ivs
  induction ivs with
  | nil =>
      rintro ⟨iv, hm, _⟩
      exact absurd hm (List.not_mem_nil iv)
  | cons iv rest ih =>
      rintro ⟨x, hx, hxe⟩
      by_cases hhd : iv.iov_len ≤ iv.bytes.length
      · have hxr : x ∈ rest := by
          rcases List.mem_cons.mp hx with h1 | h1
          · subst h1; omega
          · exact h1
        simp only [sendGatherBytes, if_pos hhd, ih ⟨x, hxr, hxe⟩]
      · simp [sendGatherBytes, hhd]

/-- With every iovec fully readable, the gather copy succeeds and collects
exactly the declared number of bytes. -/
lemma sendGatherBytes_some : ∀ (ivs : List SIov),
    (∀ iv ∈ ivs, iv.iov_len ≤ iv.bytes.length) →
    ∃ bs, sendGatherBytes ivs = some bs ∧ bs.length = (ivs.map SIov.iov_len).sum := by
  intro ivs
  induction ivs with
  | nil => exact fun _ => ⟨[], rfl, rfl⟩
  | cons iv rest ih =>
      intro hall
      obtain ⟨bs, hbs, hbl⟩ := ih (fun x hx => hall x (by simp [hx]))
      have hhd := hall iv (by simp)
      refine ⟨iv.bytes.take iv.iov_len ++ bs, ?_, ?_⟩
      · simp only [sendGatherBytes, if_pos hhd, hbs]
      · simp only [List.length_append, List.length_take, hbl, List.map_cons,
          List.sum_cons]
        omega

/-- Without `size_t` wrap-around, the gather size accumulator is the plain
sum of the declared lengths. -/
lemma sendGatherSize_foldl : ∀ (ivs : List SIov) (a : Nat),
    a + (ivs.map SIov.iov_len).sum < SZMOD →
    List.foldl (fun acc iv => (acc + iv.iov_len) % SZMOD) a ivs
      = a + (ivs.map SIov.iov_len).sum := by
  intro ivs
  induction ivs with
  | nil => intro a _; simp
  | cons iv rest ih =>
      intro a hlt
      simp only [List.foldl_cons, List.map_cons, List.sum_cons] at *
      have hmod : (a + iv.iov_len) % SZMOD = a + iv.iov_len :=
        Nat.mod_eq_of_lt (by omega)
      rw [hmod, ih (a + iv.iov_len) (by omega)]
      omega

/-- C3 fails as stated: at the exhibited malformed descriptors a native
call IS attempted.  `nn_recvmsg` with iovecs `[NN_MSG, 3]` does fail with
`EINVAL`, but only after performing the native receive; `nn_sendmsg` with
iovecs of lengths `[NN_MSG, 2]` raises no `EINVAL` at all: the sentinel is
summed into the gather size (which wraps to 1), the native allocation is
attempted, and the subsequent unchecked copy is undefined behavior. -/
theorem c3_counterexample_mixing :
    ((nn_recvmsg 0 (some ⟨2, [⟨NN_MSG⟩, ⟨3⟩], none⟩)
        (.ok ⟨7, [], [1, 2, 3]⟩) 0 0 0).result = .error EINVAL ∧
      .recvmsg ∈ (nn_recvmsg 0 (some ⟨2, [⟨NN_MSG⟩, ⟨3⟩], none⟩)
        (.ok ⟨7, [], [1, 2, 3]⟩) 0 0 0).trace) ∧
    ((nn_sendmsg 0 (some ⟨2, [⟨NN_MSG, [1, 2, 3], none⟩, ⟨2, [4, 5], none⟩], none⟩)
        0 0 0 0).result = .undef ∧
      (nn_sendmsg 0 (some ⟨2, [⟨NN_MSG, [1, 2, 3], none⟩, ⟨2, [4, 5], none⟩], none⟩)
        0 0 0 0).trace = [.msgAlloc 1]) := by
  decide

/-- C3 amended: a negative buffer count fails immediately (`EMSGSIZE`) with
no native call in both functions.  A sentinel-length buffer among multiple
buffers makes `nn_recvmsg` fail with `EINVAL`, but only after the native
receive has been performed (the received message is freed).  `nn_sendmsg`
has no sentinel-mixing check and never fails with `EINVAL` for it: the
sentinel length is summed into the gather size modulo `size_t` and the
native allocation is attempted. -/
theorem c3_descriptor_errors :
    (∀ (hdr : RMsghdr) (recvRv : Except Nat RecvIn) (pr ch car : Nat),
      hdr.msg_iovlen < 0 →
      nn_recvmsg 0 (some hdr) recvRv pr ch car
        = ⟨.error EMSGSIZE, [], none, .noCtrl, []⟩) ∧
    (∀ (hdr : SMsghdr) (fh a ap sv : Nat),
      hdr.msg_iovlen < 0 →
      nn_sendmsg 0 (some hdr) fh a ap sv = ⟨.ret (.error EMSGSIZE), [], false, false⟩) ∧
    (∀ (hdr : RMsghdr) (rm : RecvIn) (pr ch car : Nat),
      ¬(hdr.msg_iovlen = 1 ∧ hdr.iovs.head?.map RIov.iov_len = some NN_MSG) →
      0 ≤ hdr.msg_iovlen →
      (∃ iv ∈ hdr.iovs.take hdr.msg_iovlen.toNat, iv.iov_len = NN_MSG) →
      (nn_recvmsg 0 (some hdr) (.ok rm) pr ch car).result = .error EINVAL ∧
      (nn_recvmsg 0 (some hdr) (.ok rm) pr ch car).trace = [.recvmsg, .msgFree]) ∧
    (∀ (hdr : SMsghdr) (fh ap sv a : Nat),
      ¬(hdr.msg_iovlen = 1 ∧ hdr.iovs.head?.map SIov.iov_len = some NN_MSG) →
      0 ≤ hdr.msg_iovlen →
      (∃ iv ∈ hdr.iovs.take hdr.msg_iovlen.toNat, iv.iov_len = NN_MSG) →
      (∀ iv ∈ hdr.iovs, iv.bytes.length < NN_MSG) →
      (a = 0 ∨ a = NNG_ENOMEM) →
      (nn_sendmsg 0 (some hdr) fh a ap sv).result ≠ .ret (.error EINVAL)) := by
  refine ⟨?_, ?_, ?_, ?_⟩
  · intro hdr recvRv pr ch car hneg
    simp [nn_recvmsg, hneg]
  · intro hdr fh a ap sv hneg
    simp [nn_sendmsg, hneg]
  · intro hdr rm pr ch car hndyn hge hex
    have hnneg : ¬(hdr.msg_iovlen < 0) := Int.not_lt.mpr hge
    have hcp := copyout_err (hdr.iovs.take hdr.msg_iovlen.toNat) rm.body
      rm.body.length hex
    simp only [Option.map_eq_some'] at hndyn
    constructor <;> simp [nn_recvmsg, hnneg, hndyn, hcp]
  · intro hdr fh ap sv a hndyn hge hex hbytes hra
    have hnneg : ¬(hdr.msg_iovlen < 0) := Int.not_lt.mpr hge
    simp only [Option.map_eq_some'] at hndyn
    rcases hra with h0 | hnm2
    · subst h0
      have hnone : sendGatherBytes (hdr.iovs.take hdr.msg_iovlen.toNat) = none := by
        obtain ⟨x, hx, hxe⟩ := hex
        exact sendGatherBytes_none _
          ⟨x, hx, by rw [hxe]; exact hbytes x (List.take_subset _ _ hx)⟩
      simp [nn_sendmsg, hnneg, hndyn, hnone]
    · subst hnm2
      simp [nn_sendmsg, hnneg, hndyn, nn_seterror_enomem,
        (show NNG_ENOMEM ≠ 0 from by decide), ENOMEM, EINVAL]

theorem c3_descriptor_errors_witness :
    nn_recvmsg 0 (some ⟨-1, [], none⟩) (.ok ⟨0, [], []⟩) 0 0 0
        = ⟨.error EMSGSIZE, [], none, .noCtrl, []⟩ ∧
    nn_sendmsg 0 (some ⟨-1, [], none⟩) 0 0 0 0
        = ⟨.ret (.error EMSGSIZE), [], false, false⟩ ∧
    (nn_recvmsg 0 (some ⟨2, [⟨3⟩, ⟨NN_MSG⟩], none⟩)
        (.ok ⟨7, [], [1, 2, 3]⟩) 0 0 0).result = .error EINVAL ∧
    (nn_sendmsg 0 (some ⟨2, [⟨3, [1, 2, 3], none⟩, ⟨NN_MSG, [4, 5], none⟩], none⟩)
        0 0 0 0).result ≠ .ret (.error EINVAL) :=
  ⟨c3_descriptor_errors.1 ⟨-1, [], none⟩ (.ok ⟨0, [], []⟩) 0 0 0 (by decide),
   c3_descriptor_errors.2.1 ⟨-1, [], none⟩ 0 0 0 0 (by decide),
   (c3_descriptor_errors.2.2.1 ⟨2, [⟨3⟩, ⟨NN_MSG⟩], none⟩ ⟨7, [], [1, 2, 3]⟩ 0 0 0
     (by decide) (by decide) (by decide)).1,
   c3_descriptor_errors.2.2.2 ⟨2, [⟨3, [1, 2, 3], none⟩, ⟨NN_MSG, [4, 5], none⟩], none⟩
     0 0 0 0 (by decide) (by decide) (by decide) (by decide) (Or.inl rfl)⟩

/-- C8: in `nn_sendmsg`, a sentinel-length control envelope is released
only after the native send succeeds; on every failure path (header-append
failure or send failure) it is left intact for retry.  The hypothesis
covers both gather shapes of the source: the single adopted-envelope iovec
and the copy path with readable buffers and a non-wrapping total. -/
theorem c8_ctrl_envelope_freed_only_on_success :
    ∀ (hdr : SMsghdr) (c : SCtrl) (ce : NNEnv) (fh a ap sv : Nat),
      hdr.ctrl = some c → c.msg_controllen = NN_MSG → c.env = some ce →
      ((hdr.msg_iovlen = 1 ∧
          ∃ iv e, hdr.iovs.head? = some iv ∧ iv.iov_len = NN_MSG ∧ iv.env = some e) ∨
       (0 ≤ hdr.msg_iovlen ∧ a = 0 ∧
        ¬(hdr.msg_iovlen = 1 ∧ hdr.iovs.head?.map SIov.iov_len = some NN_MSG) ∧
        (∀ iv ∈ hdr.iovs.take hdr.msg_iovlen.toNat, iv.iov_len ≤ iv.bytes.length) ∧
        ((hdr.iovs.take hdr.msg_iovlen.toNat).map SIov.iov_len).sum < SZMOD)) →
      (ap ≠ 0 →
        (nn_sendmsg 0 (some hdr) fh a ap sv).freedCmsg = false ∧
        (nn_sendmsg 0 (some hdr) fh a ap sv).result = .ret (.error (nn_seterror ap))) ∧
      (ap = 0 → sv ≠ 0 →
        (nn_sendmsg 0 (some hdr) fh a ap sv).freedCmsg = false ∧
        (nn_sendmsg 0 (some hdr) fh a ap sv).result = .ret (.error (nn_seterror sv))) ∧
      (ap = 0 → sv = 0 →
        (nn_sendmsg 0 (some hdr) fh a ap sv).freedCmsg = true ∧
        ∃ n, (nn_sendmsg 0 (some hdr) fh a ap sv).result = .ret (.ok n)) := by
  intro hdr c ce fh a ap sv hctl hclen hcenv hpath
  have main : ∀ (msg : NNMsg) (keep : Bool) (tr : List NCall),
      (ap ≠ 0 → (sendFinish msg keep tr hdr.ctrl ap sv).freedCmsg = false ∧
        (sendFinish msg keep tr hdr.ctrl ap sv).result = .ret (.error (nn_seterror ap))) ∧
      (ap = 0 → sv ≠ 0 → (sendFinish msg keep tr hdr.ctrl ap sv).freedCmsg = false ∧
        (sendFinish msg keep tr hdr.ctrl ap sv).result = .ret (.error (nn_seterror sv))) ∧
      (ap = 0 → sv = 0 → (sendFinish msg keep tr hdr.ctrl ap sv).freedCmsg = true ∧
        ∃ n, (sendFinish msg keep tr hdr.ctrl ap sv).result = .ret (.ok n)) := by
    intro msg keep tr
    rw [hctl]
    refine ⟨?_, ?_, ?_⟩
    · intro hap
      constructor <;> simp [sendFinish, hclen, hcenv, hap]
    · intro hap hsv
      subst hap
      constructor <;> simp [sendFinish, sendLast, hclen, hcenv, hsv]
    · intro hap hsv
      subst hap
      subst hsv
      refine ⟨by simp [sendFinish, sendLast, hclen, hcenv],
        ⟨nng_msg_len (nng_msg_append_header msg (nng_msg_body ce.msg)),
         by simp [sendFinish, sendLast, hclen, hcenv]⟩⟩
  rcases hpath with ⟨h1, iv, e, hhd, hlen1, henv⟩ | ⟨hge, ha, hndyn, hle, hsum⟩
  · have hnneg : ¬(hdr.msg_iovlen < 0) := by rw [h1]; decide
    have hred : nn_sendmsg 0 (some hdr) fh a ap sv
        = sendFinish e.msg true [] hdr.ctrl ap sv := by
      simp [nn_sendmsg, hnneg, h1, hhd, hlen1, henv]
    rw [hred]
    exact main e.msg true []
  · have hnneg : ¬(hdr.msg_iovlen < 0) := Int.not_lt.mpr hge
    subst ha
    obtain ⟨bs, hbs, hbl⟩ := sendGatherBytes_some _ hle
    have hsz : sendGatherSize (hdr.iovs.take hdr.msg_iovlen.toNat) = bs.length := by
      unfold sendGatherSize
      rw [sendGatherSize_foldl _ 0 (by omega), hbl]
      omega
    simp only [Option.map_eq_some'] at hndyn
    have hred : nn_sendmsg 0 (some hdr) fh 0 ap sv =
        sendFinish (writeBody (nng_msg_alloc bs.length) bs) false
          [.msgAlloc bs.length] hdr.ctrl ap sv := by
      simp [nn_sendmsg, hnneg, hndyn, hbs, hsz]
    rw [hred]
    exact main _ _ _

theorem c8_ctrl_envelope_freed_only_on_success_witness :
    (nn_sendmsg 0 (some ⟨1, [⟨NN_MSG, [], some ⟨9, ⟨[1, 2, 3], 0, []⟩⟩⟩],
        some ⟨NN_MSG, [], some ⟨11, ⟨[5, 6], 0, []⟩⟩⟩⟩) 0 0 0 0).freedCmsg = true ∧
    ∃ n, (nn_sendmsg 0 (some ⟨1, [⟨NN_MSG, [], some ⟨9, ⟨[1, 2, 3], 0, []⟩⟩⟩],
        some ⟨NN_MSG, [], some ⟨11, ⟨[5, 6], 0, []⟩⟩⟩⟩) 0 0 0 0).result = .ret (.ok n) :=
  (c8_ctrl_envelope_freed_only_on_success
    ⟨1, [⟨NN_MSG, [], some ⟨9, ⟨[1, 2, 3], 0, []⟩⟩⟩],
      some ⟨NN_MSG, [], some ⟨11, ⟨[5, 6], 0, []⟩⟩⟩⟩
    ⟨NN_MSG, [], some ⟨11, ⟨[5, 6], 0, []⟩⟩⟩ ⟨11, ⟨[5, 6], 0, []⟩⟩ 0 0 0 0
    rfl rfl rfl
    (Or.inl ⟨rfl, ⟨NN_MSG, [], some ⟨9, ⟨[1, 2, 3], 0, []⟩⟩⟩, ⟨9, ⟨[1, 2, 3], 0, []⟩⟩,
      rfl, rfl, rfl⟩)).2.2 rfl rfl
